import Mathlib

/-!
# Verification of `msticpy/context/ip_utils.py`

A shallow embedding of the module `msticpy.context.ip_utils` and proofs about
its operations:

* `get_ip_type`   - classification of an address string into a scope category;
* `get_whois_info` - cached WHOIS/ASN resolution (the undecorated body and the
  `functools.lru_cache(maxsize=1024)` wrapper are modelled separately);
* `get_whois_df`  - DataFrame enrichment with WHOIS results;
* `convert_to_ip_entities` - conversion of address strings to IP entities with
  optional geolocation lookup.

External collaborators (the Python `ipaddress` standard-library module, the
`ipwhois` client, `functools.lru_cache`, `pandas`, and the geolocation
service) are modelled as explicit parameters or as faithful translations of
their documented behaviour.  Effects (network calls, console output, caller
visible mutation) are made explicit in the return types.
-/

namespace IpUtils

/-! ## Python string-argument conventions -/

/-- Python `a or b` on two optional strings: `a` is taken when it is truthy
(present and non-empty), otherwise `b`. -/
def pyOrStr (a b : Option String) : Option String :=
  match a with
  | some s => if s = "" then b else some s
  | none => b

/-- The effective address argument: `ip or ip_str`, normalised so that a falsy
result (absent, or the empty string) becomes `none`.  This mirrors the guard
`if not ip_str: raise ValueError(...)` in the source. -/
def pyStrArg (a b : Option String) : Option String :=
  match pyOrStr a b with
  | some s => if s = "" then none else some s
  | none => none

/-- Python exceptions that escape the modelled functions. -/
inductive PyErr where
  | valueError
  | keyError
  deriving DecidableEq, Repr

/-! ## Address classification: `get_ip_type`

`ipaddress.ip_address` is an external standard-library collaborator; it is
modelled as a parse function `String → Option IPInfo` where `IPInfo` records
the scope predicates that the source consults. -/

/-- Scope predicates of a parsed IPv4/IPv6 address, as exposed by the Python
`ipaddress` module on the object returned by `ipaddress.ip_address`. -/
structure IPInfo where
  is_multicast : Bool
  is_global : Bool
  is_loopback : Bool
  is_link_local : Bool
  is_unspecified : Bool
  is_private : Bool
  is_reserved : Bool
  deriving DecidableEq, Repr

/-- The diagnostic printed by `get_ip_type` when parsing fails. -/
def parseDiag (s : String) : String :=
  s ++ " does not appear to be an IPv4 or IPv6 address"

/-- The classification chain of `get_ip_type` after a successful parse:
the source's cascade of `if ... return` statements. -/
def classifyInfo (info : IPInfo) : String :=
  if info.is_multicast then "Multicast"
  else if info.is_global then "Public"
  else if info.is_loopback then "Loopback"
  else if info.is_link_local then "Link Local"
  else if info.is_unspecified then "Unspecified"
  else if info.is_private then "Private"
  else if info.is_reserved then "Reserved"
  else "Unspecified"

/-- Classification of a (non-empty) address string together with the list of
diagnostic lines printed: on parse failure a diagnostic is printed and the
final `return "Unspecified"` is reached. -/
def ip_type_of (parse : String → Option IPInfo) (s : String) : String × List String :=
  match parse s with
  | none => ("Unspecified", [parseDiag s])
  | some info => (classifyInfo info, [])

/-- `get_ip_type(ip, ip_str)`: raises `ValueError` when the effective argument
`ip or ip_str` is falsy, otherwise classifies.  The result carries the printed
diagnostic lines. -/
def get_ip_type (parse : String → Option IPInfo) (ip ip_str : Option String) :
    Except PyErr (String × List String) :=
  match pyStrArg ip ip_str with
  | none => .error .valueError
  | some s => .ok (ip_type_of parse s)

/-! Specification-side rendering of the classification for claim C1: a
first-match scan of the fixed priority table.  This definition follows the
spec's words (priority order multicast, public, loopback, link-local,
unspecified, private, reserved; default `Unspecified`) and is compared with
the code-derived `classifyInfo`. -/

/-- First matching category of a predicate/category table; `"Unspecified"`
when no predicate matches. -/
def firstMatch : List (Bool × String) → String
  | [] => "Unspecified"
  | (b, t) :: rest => if b then t else firstMatch rest

/-- The spec's fixed priority table of scope predicates. -/
def specPriorityTable (info : IPInfo) : List (Bool × String) :=
  [(info.is_multicast, "Multicast"),
   (info.is_global, "Public"),
   (info.is_loopback, "Loopback"),
   (info.is_link_local, "Link Local"),
   (info.is_unspecified, "Unspecified"),
   (info.is_private, "Private"),
   (info.is_reserved, "Reserved")]

/-! ## WHOIS resolution: `get_whois_info` (undecorated body) -/

/-- The `ipwhois` error kinds caught by `get_whois_info`. -/
inductive WhoisError where
  | httpLookupError
  | httpRateLimitError
  | hostLookupError
  | whoisLookupError
  | whoisRateLimitError
  | asnRegistryError
  deriving DecidableEq, Repr

/-- Rendering of `type(err)` for each caught `ipwhois` error kind (Python
formats this as `<class ipwhois.exceptions.X>` with the dotted name quoted;
the quote characters are omitted in the model). -/
def errTypeStr : WhoisError → String
  | .httpLookupError => "<class ipwhois.exceptions.HTTPLookupError>"
  | .httpRateLimitError => "<class ipwhois.exceptions.HTTPRateLimitError>"
  | .hostLookupError => "<class ipwhois.exceptions.HostLookupError>"
  | .whoisLookupError => "<class ipwhois.exceptions.WhoisLookupError>"
  | .whoisRateLimitError => "<class ipwhois.exceptions.WhoisRateLimitError>"
  | .asnRegistryError => "<class ipwhois.exceptions.ASNRegistryError>"

/-- A WHOIS result record: the dictionary returned by
`IPWhois(ip).lookup_whois()`, modelled as an association list. -/
abbrev Record := List (String × String)

/-- Python dictionary lookup `r[k]` as an optional value (first binding). -/
def recFind (r : Record) (k : String) : Option String :=
  (r.find? (fun p => p.1 = k)).map Prod.snd

/-- The external world of the resolver: the `ipaddress` parse collaborator and
the `ipwhois` lookup client.  `lookup_whois` is the single network operation. -/
structure WhoisEnv where
  parse : String → Option IPInfo
  lookup_whois : String → Except WhoisError Record

/-- Outcome of one (uncached) `get_whois_info` body execution: the returned
value or escaped exception, the addresses for which a network lookup was
performed, and the lines printed to the console. -/
structure CallOut where
  result : Except PyErr (String × Record)
  net : List String
  out : List String
  deriving Repr

/-- The undecorated body of `get_whois_info(ip, show_progress, **kwargs)`.

* raises `ValueError` when the effective address `ip or kwargs.get("ip_str")`
  is falsy;
* classifies the address with `get_ip_type` (whose diagnostic, if any, is
  printed);
* for a `Public` address invokes the external client once; on success prints
  the progress marker `"."` (when `show_progress`) and returns
  `(whois_result["asn_description"], whois_result)` (a missing
  `asn_description` key raises `KeyError`, which is not among the caught
  `ipwhois` error kinds); on a caught error kind returns the error summary and
  an empty record;
* for a non-`Public` address returns the no-ASN summary and an empty record
  without any network call. -/
def get_whois_info (env : WhoisEnv) (ip : Option String) (show_progress : Bool)
    (ip_str_kw : Option String) : CallOut :=
  match pyStrArg ip ip_str_kw with
  | none => { result := .error .valueError, net := [], out := [] }
  | some s =>
    let tp := ip_type_of env.parse s
    if tp.1 = "Public" then
      match env.lookup_whois s with
      | .ok r =>
        let printed := tp.2 ++ (if show_progress then ["."] else [])
        match recFind r "asn_description" with
        | some asn => { result := .ok (asn, r), net := [s], out := printed }
        | none => { result := .error .keyError, net := [s], out := printed }
      | .error e =>
        { result := .ok ("Error during lookup of " ++ s ++ " " ++ errTypeStr e, []),
          net := [s], out := tp.2 }
    else
      { result := .ok ("No ASN Information for IP type: " ++ tp.1, []),
        net := [], out := tp.2 }

/-- Decidable equality for `Except`, used to evaluate concrete results. -/
instance exceptDecEq {ε α : Type} [DecidableEq ε] [DecidableEq α] :
    DecidableEq (Except ε α)
  | .ok a, .ok b =>
    if h : a = b then .isTrue (by rw [h]) else .isFalse (by simp [h])
  | .ok _, .error _ => .isFalse (by simp)
  | .error _, .ok _ => .isFalse (by simp)
  | .error a, .error b =>
    if h : a = b then .isTrue (by rw [h]) else .isFalse (by simp [h])

/-! ## The `functools.lru_cache(maxsize=1024)` wrapper

`get_whois_info` in the source is decorated with `@lru_cache(maxsize=1024)`:
results are memoized on the full argument tuple, a hit moves the entry to
most-recently-used, a miss computes the body and (when it returns normally)
stores the result, evicting the least-recently-used entry beyond `maxsize`.
Exceptions are not cached.  Calls are modelled as always passing the same
argument signature `(ip, show_progress, ip_str)`. -/

/-- A cache key: the argument tuple `(ip, show_progress, ip_str-kwarg)`. -/
abbrev CacheKey := Option String × Bool × Option String

/-- A cached value: the `(summary, record)` pair returned by the body. -/
abbrev CacheVal := String × Record

/-- The memoization table, ordered most-recently-used first. -/
abbrev Cache := List (CacheKey × CacheVal)

/-- Cache lookup (first, i.e. most recent, binding). -/
def cacheFind (c : Cache) (k : CacheKey) : Option CacheVal :=
  (c.find? (fun p => p.1 = k)).map Prod.snd

/-- Remove the entry of key `k`. -/
def cacheRemove (c : Cache) (k : CacheKey) : Cache :=
  c.filter (fun p => p.1 ≠ k)

/-- On a hit, `lru_cache` relinks the entry to the most-recently-used slot. -/
def cacheRefresh (c : Cache) (k : CacheKey) (v : CacheVal) : Cache :=
  (k, v) :: cacheRemove c k

/-- On a miss, the computed value is stored; entries beyond `maxsize` (the
least recently used) are evicted. -/
def cacheInsert (maxsize : Nat) (c : Cache) (k : CacheKey) (v : CacheVal) : Cache :=
  ((k, v) :: c).take maxsize

/-- Outcome of one call to the cached function: result, network lookups
performed, console output, and the cache afterwards. -/
structure StepOut where
  result : Except PyErr (String × Record)
  net : List String
  out : List String
  cache : Cache

/-- One call to the `lru_cache(maxsize)`-wrapped body: a hit returns the
cached pair with no body execution (hence no network call and no output); a
miss runs the body, caching the value only on a normal return. -/
def lruStep (maxsize : Nat) (env : WhoisEnv) (c : Cache)
    (ip : Option String) (show_progress : Bool) (ip_str_kw : Option String) : StepOut :=
  let k : CacheKey := (ip, show_progress, ip_str_kw)
  match cacheFind c k with
  | some v => { result := .ok v, net := [], out := [], cache := cacheRefresh c k v }
  | none =>
    let o := get_whois_info env ip show_progress ip_str_kw
    match o.result with
    | .ok v =>
      { result := .ok v, net := o.net, out := o.out, cache := cacheInsert maxsize c k v }
    | .error e => { result := .error e, net := o.net, out := o.out, cache := c }

/-- The source's exported function: `get_whois_info` decorated with
`lru_cache(maxsize=1024)`. -/
def get_whois_info_cached (env : WhoisEnv) (c : Cache) (ip : Option String)
    (show_progress : Bool) (ip_str_kw : Option String) : StepOut :=
  lruStep 1024 env c ip show_progress ip_str_kw

/-- Run a sequence of calls to the cached function, collecting all network
lookups in order. -/
def runCalls (maxsize : Nat) (env : WhoisEnv) : Cache → List CacheKey → Cache × List String
  | c, [] => (c, [])
  | c, a :: rest =>
    let s := lruStep maxsize env c a.1 a.2.1 a.2.2
    let r := runCalls maxsize env s.cache rest
    (r.1, s.net ++ r.2)

/-- Argument tuple of a plain positional single-address call. -/
def mkKey (s : String) : CacheKey := (some s, false, none)

/-- The documented contract of the external WHOIS client (spec section on
external interfaces): a successful lookup returns a record that includes the
ASN description field. -/
def WhoisEnv.WF (env : WhoisEnv) : Prop :=
  ∀ s r, env.lookup_whois s = .ok r → (recFind r "asn_description").isSome

/-! ## Concrete demonstration environments (used by witnesses) -/

/-- `IPInfo` of a globally routable (public) address. -/
def publicInfo : IPInfo :=
  { is_multicast := false, is_global := true, is_loopback := false,
    is_link_local := false, is_unspecified := false, is_private := false,
    is_reserved := false }

/-- `IPInfo` of an RFC1918 private address. -/
def privateInfo : IPInfo :=
  { is_multicast := false, is_global := false, is_loopback := false,
    is_link_local := false, is_unspecified := false, is_private := true,
    is_reserved := false }

/-- A demonstration parse collaborator recognising two addresses. -/
def parseDemo : String → Option IPInfo := fun s =>
  if s = "8.8.8.8" then some publicInfo
  else if s = "10.0.0.5" then some privateInfo
  else none

/-- Demonstration environment: every lookup succeeds with a one-field record. -/
def envDemo : WhoisEnv :=
  { parse := parseDemo,
    lookup_whois := fun s => .ok [("asn_description", "ASN EXAMPLE " ++ s)] }

/-- Demonstration environment: every lookup fails with a rate-limit error. -/
def envRateLimited : WhoisEnv :=
  { parse := parseDemo,
    lookup_whois := fun _ => .error .httpRateLimitError }

/-- Demonstration environment in which every string parses as a global
address and every lookup succeeds. -/
def envAllPublic : WhoisEnv :=
  { parse := fun _ => some publicInfo,
    lookup_whois := fun s => .ok [("asn_description", s)] }

/-- The strings of a list not yet seen, in first-occurrence order (used both
for cache-miss analysis and for the pandas column-union model). -/
def freshKeys (seen : List String) : List String → List String
  | [] => []
  | a :: rest =>
    if a ∈ seen then freshKeys seen rest else a :: freshKeys (a :: seen) rest

/-- The environment condition for the caching analysis: every non-empty
address classifies as `Public` and the client lookup succeeds with a record
carrying the ASN description. -/
def PublicEnv (env : WhoisEnv) : Prop :=
  ∀ s : String, s ≠ "" →
    (ip_type_of env.parse s).1 = "Public" ∧
    ∃ r, env.lookup_whois s = .ok r ∧ (recFind r "asn_description").isSome

/-- 1024 pairwise-distinct non-empty addresses, none equal to `"A"`: the
address of index `i` is the string of `i + 1` letters `k`. -/
def evictKeys : List String :=
  (List.range 1024).map fun i => String.mk (List.replicate (i + 1) 'k')

/-- The call sequence that defeats the 1024-entry LRU cache: resolve `"A"`,
then 1024 distinct other addresses, then `"A"` again. -/
def evictSeq : List String := ("A" :: evictKeys) ++ ["A"]

/-! ## DataFrame model

`pandas` is an external collaborator; the fragment used by the source
(`apply` over rows with `result_type="expand"`, column assignment, `copy`) is
modelled on a list-of-rows frame. -/

/-- A cell value: a string, a stored whois record (the dictionary placed in
the raw-record column), or a missing value (`NaN`). -/
inductive PyVal where
  | vstr : String → PyVal
  | vrec : Record → PyVal
  | vnan : PyVal
  deriving DecidableEq, Repr

/-- A DataFrame: named columns and row-major cells; the cell of row `i` and
column `cols[j]` is `rows[i][j]`. -/
structure DataFrame where
  cols : List String
  rows : List (List PyVal)
  deriving DecidableEq, Repr

/-- Index of a column name. -/
def colIdx (df : DataFrame) (c : String) : Option Nat :=
  df.cols.findIdx? (fun x => x = c)

/-- Row-wise access `x[c]` as used inside `data.apply(..., axis=1)`. -/
def rowGet (df : DataFrame) (row : List PyVal) (c : String) : Option PyVal :=
  match colIdx df c with
  | none => none
  | some i => row.get? i

/-- The string content of a cell.  The claims exercise string-valued address
columns; non-string cells are outside the modelled fragment. -/
def cellStr : PyVal → Option String
  | .vstr s => some s
  | _ => none

/-- One row of the `apply` in `get_whois_df`: look up the address cell and
run the `get_whois_info` body on it.  A missing column raises `KeyError`
(pandas), a non-string cell is outside the modelled fragment. -/
def rowWhois (env : WhoisEnv) (df : DataFrame) (ip_column : String) (sp : Bool)
    (row : List PyVal) : Except PyErr ((String × Record) × List String × List String) :=
  match rowGet df row ip_column with
  | none => .error .keyError
  | some cell =>
    match cellStr cell with
    | none => .error .valueError
    | some s =>
      let o := get_whois_info env (some s) sp none
      match o.result with
      | .ok v => .ok (v, o.net, o.out)
      | .error e => .error e

/-- The row-by-row `apply`: per-row `(summary, record)` pairs in row order,
with the concatenated network and console traces; the first raising row
aborts the application. -/
def rowsWhois (env : WhoisEnv) (df : DataFrame) (ip_column : String) (sp : Bool) :
    List (List PyVal) → Except PyErr (List (String × Record) × List String × List String)
  | [] => .ok ([], [], [])
  | row :: rest =>
    match rowWhois env df ip_column sp row with
    | .error e => .error e
    | .ok (v, n, o) =>
      match rowsWhois env df ip_column sp rest with
      | .error e => .error e
      | .ok (vs, ns, os) => .ok (v :: vs, n ++ ns, o ++ os)

/-- Union of the record field names across rows, in first-appearance order:
the column set pandas produces when expanding a series of dictionaries. -/
def unionFields (recs : List Record) : List String :=
  freshKeys [] ((recs.map (fun r => r.map Prod.fst)).flatten)

/-- `data.apply(f, axis=1, result_type="expand")` for a dict-returning `f`:
a new frame whose columns are the union of the dictionaries' keys and whose
cells are the dictionary values, `NaN` where a row's dictionary lacks the
key.  The original columns of `data` are not part of the result. -/
def applyExpandRecords (recs : List Record) : DataFrame :=
  { cols := unionFields recs,
    rows := recs.map fun r => (unionFields recs).map fun c =>
      match recFind r c with
      | some v => PyVal.vstr v
      | none => PyVal.vnan }

/-- Column assignment `df[c] = vals`: overwrite an existing column, else
append a new one on the right. -/
def setCol (df : DataFrame) (c : String) (vals : List PyVal) : DataFrame :=
  match colIdx df c with
  | some i =>
    { cols := df.cols, rows := (df.rows.zip vals).map fun p => p.1.set i p.2 }
  | none =>
    { cols := df.cols ++ [c], rows := (df.rows.zip vals).map fun p => p.1 ++ [p.2] }

/-- Outcome of `get_whois_df`: the returned frame (or escaped exception), the
frame the caller observes afterwards, and the effect traces.  The source's
`data = data.copy()` is translated as binding the local name to a fresh
value, so later column assignments are functional updates of the copy and the
caller's frame is returned unchanged. -/
structure DfOut where
  result : Except PyErr DataFrame
  caller : DataFrame
  net : List String
  out : List String

/-- `get_whois_df(data, ip_column, all_columns, asn_col, whois_col,
show_progress)`:

* `all_columns=True`: return the result of
  `data.apply(lambda x: get_whois_info(x[ip_column], ...)[1], axis=1,
  result_type="expand")` — the expanded-record frame only;
* otherwise `data = data.copy()`; with `whois_col` set, assign
  `data[[asn_col, whois_col]]` from the `(summary, record)` pairs, else
  assign `data[asn_col]` from the summaries; return the copy.

The per-row whois results are computed by the same body in every branch (the
source's `lru_cache` decorator changes network-call counts, analysed
separately, but not values, the body being deterministic in `env`). -/
def get_whois_df (env : WhoisEnv) (data : DataFrame) (ip_column : String)
    (all_columns : Bool) (asn_col : String) (whois_col : Option String)
    (show_progress : Bool) : DfOut :=
  match rowsWhois env data ip_column show_progress data.rows with
  | .error e => { result := .error e, caller := data, net := [], out := [] }
  | .ok (vals, n, o) =>
    if all_columns then
      { result := .ok (applyExpandRecords (vals.map Prod.snd)),
        caller := data, net := n, out := o }
    else
      match whois_col with
      | some wc =>
        { result := .ok (setCol (setCol data asn_col
            (vals.map fun v => PyVal.vstr v.1)) wc
            (vals.map fun v => PyVal.vrec v.2)),
          caller := data, net := n, out := o }
      | none =>
        { result := .ok (setCol data asn_col (vals.map fun v => PyVal.vstr v.1)),
          caller := data, net := n, out := o }

/-- One-row demonstration frame holding a private address. -/
def dfPriv : DataFrame := { cols := ["ip"], rows := [[PyVal.vstr "10.0.0.5"]] }

/-- One-row demonstration frame with a public address and one extra column. -/
def dfPub2 : DataFrame :=
  { cols := ["ip", "other"], rows := [[PyVal.vstr "8.8.8.8", PyVal.vstr "x"]] }

/-- Two-row demonstration frame with two distinct addresses. -/
def dfTwo : DataFrame :=
  { cols := ["ip"], rows := [[PyVal.vstr "1.2.3.4"], [PyVal.vstr "5.6.7.8"]] }

/-- The frame that expand mode produces from `dfPub2` in `envDemo`: only the
record column survives. -/
def dfPub2Expanded : DataFrame :=
  { cols := ["asn_description"], rows := [[PyVal.vstr "ASN EXAMPLE 8.8.8.8"]] }

/-! ## Entity building: `convert_to_ip_entities` -/

/-- Python truthiness of an optional string (`None` and `""` are falsy). -/
def pyTruthyStr : Option String → Bool
  | some s => s ≠ ""
  | none => false

/-- Split a character list at the characters satisfying `p` (Python
`str.split` with explicit delimiters: empty fragments are kept). -/
def splitChars (p : Char → Bool) : List Char → List Char → List String
  | [], acc => [String.mk acc.reverse]
  | ch :: rest, acc =>
    if p ch then String.mk acc.reverse :: splitChars p rest []
    else splitChars p rest (ch :: acc)

/-- Python `str.split(delims)` on a string, modelled over its character
list. -/
def strSplit (s : String) (p : Char → Bool) : List String :=
  splitChars p s.data []

/-- Python `str.strip()` (modelled for space characters, the whitespace the
claims exercise). -/
def pyStrip (s : String) : String :=
  String.mk (((s.data.dropWhile (fun ch => ch == ' ')).reverse.dropWhile
    (fun ch => ch == ' ')).reverse)

/-- Python `"," in addr`. -/
def strContains (s : String) (c : Char) : Bool :=
  s.data.contains c

/-- Modelled from the spec: `arg_to_list` lives in `msticpy.common.utility`,
which is not among the sources; the spec (and the docstring of
`convert_to_ip_entities`) describe the input as a single string with multiple
addresses delimited by comma or space.  Modelled as splitting on those
delimiters and dropping empty fragments. -/
def arg_to_list (s : String) : List String :=
  (strSplit s fun ch => ch == ',' || ch == ' ').filter (fun x => x ≠ "")

/-- The body loop of `convert_to_ip_entities` over the address batches:

* a comma-containing string batch is split, stripped and deduplicated (the
  Python set literal; set iteration order is unspecified in Python and is
  modelled as first-occurrence order), any other batch is the singleton set;
* addresses already seen are removed (`ip_list - all_ips`), the remaining
  ones become entities (modelled by their address string);
* when geolocation is enabled the collaborator's `lookup_ip` is invoked —
  inside the batch loop — on **every entity accumulated so far**
  (`for ip_ent in ip_entities:`), and the trace records those calls in
  order. -/
def convLoop (geo : Bool) : List String → List String → List String → List String →
    List String × List String
  | [], ents, _allIps, trace => (ents, trace)
  | addr :: rest, ents, allIps, trace =>
    let ipl :=
      if strContains addr ',' then
        freshKeys [] ((strSplit addr fun ch => ch == ',').map pyStrip)
      else [addr]
    let ipl := ipl.filter fun ip => ip ∉ allIps
    let ents' := ents ++ ipl
    let allIps' := allIps ++ ipl
    let trace' := if geo then trace ++ ents' else trace
    convLoop geo rest ents' allIps' trace'

/-- The `data + ip_col` input branch of `convert_to_ip_entities`:
`data[ip_col].values`.  A missing column raises `KeyError`; cells are
string-valued in the modelled fragment. -/
def convertFromData (data : Option DataFrame) (ip_col : Option String)
    (geo_lookup : Bool) : Except PyErr (List String × List String) :=
  match data, ip_col with
  | some df, some c =>
    if c = "" then .error .valueError
    else
      match colIdx df c with
      | none => .error .keyError
      | some i =>
        .ok (convLoop geo_lookup
          (df.rows.map fun row => ((row.get? i).bind cellStr).getD "") [] [] [])
  | _, _ => .error .valueError

/-- `convert_to_ip_entities(ip_str, data, ip_col, geo_lookup)`: a truthy
`ip_str` is split into batches with `arg_to_list` (taking precedence over
`data`); otherwise a provided `data + ip_col` pair is used; otherwise
`ValueError` is raised.  Returns the entity list and the geolocation-lookup
trace. -/
def convert_to_ip_entities (ip_str : Option String) (data : Option DataFrame)
    (ip_col : Option String) (geo_lookup : Bool) :
    Except PyErr (List String × List String) :=
  match ip_str with
  | some s =>
    if s = "" then convertFromData data ip_col geo_lookup
    else .ok (convLoop geo_lookup (arg_to_list s) [] [] [])
  | none => convertFromData data ip_col geo_lookup

end IpUtils

namespace IpUtils

/-! ## Claim C1 -/

/-- The code's classification cascade agrees with a first-match scan of the
spec's priority table, for every combination of scope predicates. -/
theorem classifyInfo_eq_firstMatch (info : IPInfo) :
    classifyInfo info = firstMatch (specPriorityTable info) := by
  obtain ⟨m, g, lo, ll, u, pr, re⟩ := info
  revert m g lo ll u pr re
  decide

/-- C1: for every input string that parses as a valid IPv4 or IPv6 address,
`get_ip_type` returns the first matching category of the fixed priority table
multicast, public, loopback, link-local, unspecified, private, reserved
(default `Unspecified` when no predicate matches), and for every non-empty
string that fails to parse it prints a diagnostic and returns `"Unspecified"`
without raising. -/
theorem claim_C1_classification_priority (parse : String → Option IPInfo)
    (ip ip_str : Option String) (s : String) (hs : pyStrArg ip ip_str = some s) :
    (∀ info, parse s = some info →
      get_ip_type parse ip ip_str = .ok (firstMatch (specPriorityTable info), [])) ∧
    (parse s = none →
      get_ip_type parse ip ip_str = .ok ("Unspecified", [parseDiag s])) := by
  constructor
  · intro info hinfo
    simp [get_ip_type, hs, ip_type_of, hinfo, classifyInfo_eq_firstMatch]
  · intro hnone
    simp [get_ip_type, hs, ip_type_of, hnone]

/-- Witness for C1 at concrete inputs: `"8.8.8.8"` parses to a global address
and is classified by the priority table; `"not-an-ip"` fails to parse and
yields the diagnostic plus `"Unspecified"`. -/
theorem claim_C1_classification_priority_witness :
    (pyStrArg (some "8.8.8.8") none = some "8.8.8.8" ∧
      parseDemo "8.8.8.8" = some publicInfo ∧
      get_ip_type parseDemo (some "8.8.8.8") none =
        .ok (firstMatch (specPriorityTable publicInfo), [])) ∧
    (pyStrArg (some "not-an-ip") none = some "not-an-ip" ∧
      parseDemo "not-an-ip" = none ∧
      get_ip_type parseDemo (some "not-an-ip") none =
        .ok ("Unspecified", [parseDiag "not-an-ip"])) :=
  ⟨⟨by decide, by decide,
      (claim_C1_classification_priority parseDemo (some "8.8.8.8") none "8.8.8.8"
        (by decide)).1 publicInfo (by decide)⟩,
   ⟨by decide, by decide,
      (claim_C1_classification_priority parseDemo (some "not-an-ip") none "not-an-ip"
        (by decide)).2 (by decide)⟩⟩

/-! ## Claim C2 -/

/-- C2: for every address whose classification is not `"Public"`,
`get_whois_info` returns the summary `"No ASN Information for IP type: X"`
(where `X` is the classified type) together with an empty record, and the
external WHOIS client is never invoked (`net = []`). -/
theorem claim_C2_nonpublic_no_network (env : WhoisEnv) (ip ip_str_kw : Option String)
    (show_progress : Bool) (s : String)
    (hs : pyStrArg ip ip_str_kw = some s)
    (hnp : (ip_type_of env.parse s).1 ≠ "Public") :
    get_whois_info env ip show_progress ip_str_kw =
      { result := .ok ("No ASN Information for IP type: " ++ (ip_type_of env.parse s).1, []),
        net := [],
        out := (ip_type_of env.parse s).2 } := by
  simp [get_whois_info, hs, hnp]

/-- Witness for C2: resolving the private address `"10.0.0.5"` returns the
no-ASN summary, an empty record, and performs no network call. -/
theorem claim_C2_nonpublic_no_network_witness :
    pyStrArg (some "10.0.0.5") none = some "10.0.0.5" ∧
    (ip_type_of envDemo.parse "10.0.0.5").1 ≠ "Public" ∧
    get_whois_info envDemo (some "10.0.0.5") false none =
      { result := .ok ("No ASN Information for IP type: Private", []),
        net := [], out := [] } :=
  ⟨by decide, by decide,
    by simpa using
      claim_C2_nonpublic_no_network envDemo (some "10.0.0.5") none false "10.0.0.5"
        (by decide) (by decide)⟩

/-! ## Claim C3 -/

/-- C3: for every public address for which the external WHOIS client raises
any of the caught `ipwhois` failure kinds, `get_whois_info` does not raise; it
returns the summary `"Error during lookup of <addr> <errkind>"` (embedding the
address and the error kind) paired with an empty record. -/
theorem claim_C3_lookup_failure_swallowed (env : WhoisEnv) (ip ip_str_kw : Option String)
    (show_progress : Bool) (s : String) (e : WhoisError)
    (hs : pyStrArg ip ip_str_kw = some s)
    (hpub : (ip_type_of env.parse s).1 = "Public")
    (herr : env.lookup_whois s = .error e) :
    get_whois_info env ip show_progress ip_str_kw =
      { result := .ok ("Error during lookup of " ++ s ++ " " ++ errTypeStr e, []),
        net := [s],
        out := (ip_type_of env.parse s).2 } := by
  simp [get_whois_info, hs, hpub, herr]

/-- Witness for C3: a rate-limited lookup of the public address `"8.8.8.8"`
returns the error summary with an empty record instead of raising. -/
theorem claim_C3_lookup_failure_swallowed_witness :
    pyStrArg (some "8.8.8.8") none = some "8.8.8.8" ∧
    (ip_type_of envRateLimited.parse "8.8.8.8").1 = "Public" ∧
    envRateLimited.lookup_whois "8.8.8.8" = .error .httpRateLimitError ∧
    get_whois_info envRateLimited (some "8.8.8.8") false none =
      { result := .ok ("Error during lookup of 8.8.8.8 " ++
          errTypeStr .httpRateLimitError, []),
        net := ["8.8.8.8"], out := [] } :=
  ⟨by decide, by decide, by decide,
    by simpa using
      claim_C3_lookup_failure_swallowed envRateLimited (some "8.8.8.8") none false
        "8.8.8.8" .httpRateLimitError (by decide) (by decide) (by decide)⟩

/-! ## Claim C4 -/

/-- The body of `get_whois_info` performs at most one network lookup. -/
theorem get_whois_info_net_length (env : WhoisEnv) (ip : Option String)
    (sp : Bool) (kw : Option String) :
    (get_whois_info env ip sp kw).net.length ≤ 1 := by
  unfold get_whois_info
  cases hps : pyStrArg ip kw
  · simp
  · rename_i s
    by_cases ht : (ip_type_of env.parse s).1 = "Public"
    · cases hl : env.lookup_whois s
      · simp [ht, hl]
      · rename_i r
        cases hr : recFind r "asn_description" <;> simp [ht, hl, hr]
    · simp [ht]

/-- Under the client contract, the only exception the body can raise is the
`ValueError` for a missing address, and that path performs no network call. -/
theorem get_whois_info_error_of_wf (env : WhoisEnv) (hwf : env.WF)
    (ip : Option String) (sp : Bool) (kw : Option String) (e : PyErr)
    (he : (get_whois_info env ip sp kw).result = .error e) :
    e = .valueError ∧ (get_whois_info env ip sp kw).net = [] := by
  unfold get_whois_info at he ⊢
  cases hps : pyStrArg ip kw
  · simp [hps] at he ⊢
    exact he.symm
  · rename_i s
    by_cases ht : (ip_type_of env.parse s).1 = "Public"
    · cases hl : env.lookup_whois s
      · simp [hps, ht, hl] at he
      · rename_i r
        cases hr : recFind r "asn_description"
        · have := hwf s r hl
          simp [hr] at this
        · simp [hps, ht, hl, hr] at he
    · simp [hps, ht] at he

/-- A just-refreshed or just-inserted key is found at the front. -/
theorem cacheFind_cons_self (k : CacheKey) (v : CacheVal) (c : Cache) :
    cacheFind ((k, v) :: c) k = some v := by
  simp [cacheFind, List.find?_cons_of_pos]

/-- A key inserted into the cache is still present (it occupies the
most-recently-used slot), for any positive capacity. -/
theorem cacheFind_insert_self (M : Nat) (hM : 1 ≤ M) (c : Cache)
    (k : CacheKey) (v : CacheVal) :
    cacheFind (cacheInsert M c k v) k = some v := by
  obtain ⟨m, rfl⟩ : ∃ m, M = m + 1 := ⟨M - 1, (Nat.succ_pred_eq_of_pos hM).symm⟩
  simp [cacheInsert, List.take_succ_cons, cacheFind_cons_self]

/-- C4: calling the cached resolver twice in succession with the same
argument tuple returns identical results, the second call performs no network
activity (on a normal first return it is served from the cache), and the two
calls together perform at most one network call — including when the first
lookup failed with a caught client error, since that failure is converted to
a normal return and cached like a success. -/
theorem claim_C4_repeated_call_cached (env : WhoisEnv) (hwf : env.WF) (c : Cache)
    (ip : Option String) (sp : Bool) (kw : Option String) :
    (get_whois_info_cached env (get_whois_info_cached env c ip sp kw).cache
        ip sp kw).result = (get_whois_info_cached env c ip sp kw).result ∧
    (get_whois_info_cached env (get_whois_info_cached env c ip sp kw).cache
        ip sp kw).net = [] ∧
    (get_whois_info_cached env c ip sp kw).net.length +
      (get_whois_info_cached env (get_whois_info_cached env c ip sp kw).cache
        ip sp kw).net.length ≤ 1 := by
  unfold get_whois_info_cached lruStep
  cases h1 : cacheFind c (ip, sp, kw)
  · cases ho : (get_whois_info env ip sp kw).result
    · rename_i e
      obtain ⟨rfl, hnet⟩ := get_whois_info_error_of_wf env hwf ip sp kw e ho
      simp [h1, ho, hnet]
    · rename_i v
      have hfind := cacheFind_insert_self 1024 (by norm_num) c (ip, sp, kw) v
      have hlen := get_whois_info_net_length env ip sp kw
      simp [h1, ho, hfind]
      omega
  · rename_i v
    have hfind := cacheFind_cons_self (ip, sp, kw) v (cacheRemove c (ip, sp, kw))
    simp [h1, cacheRefresh, hfind]

/-- The demonstration environment satisfies the client contract. -/
theorem envDemo_wf : envDemo.WF := by
  intro s r h
  simp [envDemo] at h
  subst h
  simp [recFind, List.find?]

/-- Witness for C4: two successive lookups of `"8.8.8.8"` in the
demonstration environment starting from an empty cache. -/
theorem claim_C4_repeated_call_cached_witness :
    envDemo.WF ∧
    ((get_whois_info_cached envDemo
        (get_whois_info_cached envDemo [] (some "8.8.8.8") false none).cache
        (some "8.8.8.8") false none).result =
      (get_whois_info_cached envDemo [] (some "8.8.8.8") false none).result ∧
    (get_whois_info_cached envDemo
        (get_whois_info_cached envDemo [] (some "8.8.8.8") false none).cache
        (some "8.8.8.8") false none).net = [] ∧
    (get_whois_info_cached envDemo [] (some "8.8.8.8") false none).net.length +
      (get_whois_info_cached envDemo
        (get_whois_info_cached envDemo [] (some "8.8.8.8") false none).cache
        (some "8.8.8.8") false none).net.length ≤ 1) :=
  ⟨envDemo_wf,
    claim_C4_repeated_call_cached envDemo envDemo_wf [] (some "8.8.8.8") false none⟩

/-! ## Claim C5: cache boundedness

Machinery for reasoning about sequences of calls against the LRU cache. -/

/-- `freshKeys` depends on `seen` only through membership. -/
theorem freshKeys_congr (l : List String) :
    ∀ s₁ s₂ : List String, (∀ x, x ∈ s₁ ↔ x ∈ s₂) →
      freshKeys s₁ l = freshKeys s₂ l := by
  induction l with
  | nil => intro s₁ s₂ _; rfl
  | cons a rest ih =>
    intro s₁ s₂ hiff
    by_cases h : a ∈ s₁
    · simp [freshKeys, h, (hiff a).mp h, ih s₁ s₂ hiff]
    · have h2 : a ∉ s₂ := fun hc => h ((hiff a).mpr hc)
      have : ∀ x, x ∈ a :: s₁ ↔ x ∈ a :: s₂ := by
        intro x; simp [hiff x]
      simp [freshKeys, h, h2, ih (a :: s₁) (a :: s₂) this]

/-- Elements produced by `freshKeys` are outside `seen`. -/
theorem freshKeys_not_mem_seen (l : List String) :
    ∀ (seen : List String) (x : String), x ∈ freshKeys seen l → x ∉ seen := by
  induction l with
  | nil => intro seen x h; simp [freshKeys] at h
  | cons a rest ih =>
    intro seen x h
    by_cases ha : a ∈ seen
    · simp [freshKeys, ha] at h
      exact ih seen x h
    · simp [freshKeys, ha] at h
      rcases h with rfl | h
      · exact ha
      · intro hx
        exact ih (a :: seen) x h (by simp [hx])

/-- `freshKeys` produces no duplicates. -/
theorem freshKeys_nodup (l : List String) :
    ∀ seen : List String, (freshKeys seen l).Nodup := by
  induction l with
  | nil => intro seen; simp [freshKeys]
  | cons a rest ih =>
    intro seen
    by_cases ha : a ∈ seen
    · simp [freshKeys, ha, ih seen]
    · simp only [freshKeys, ha, if_false, List.nodup_cons]
      refine ⟨fun hmem => ?_, ih (a :: seen)⟩
      exact freshKeys_not_mem_seen rest (a :: seen) a hmem (by simp)

/-- `mkKey` is injective. -/
theorem mkKey_injective : Function.Injective mkKey := by
  intro a b h
  simpa [mkKey] using h

theorem mkKey_eq_iff (a b : String) : mkKey a = mkKey b ↔ a = b :=
  ⟨fun h => mkKey_injective h, fun h => by rw [h]⟩

/-- A cache lookup fails exactly when the key is absent. -/
theorem cacheFind_eq_none (c : Cache) (k : CacheKey) :
    cacheFind c k = none ↔ k ∉ c.map Prod.fst := by
  have h1 : cacheFind c k = none ↔ ∀ p ∈ c, ¬ p.1 = k := by
    unfold cacheFind
    rw [Option.map_eq_none', List.find?_eq_none]
    simp only [decide_eq_true_eq]
  rw [h1]
  constructor
  · intro h hk
    rcases List.mem_map.mp hk with ⟨p, hp, hpk⟩
    exact h p hp hpk
  · intro h p hp hpk
    exact h (List.mem_map.mpr ⟨p, hp, hpk⟩)

/-- The key list after removing `k`. -/
theorem cacheRemove_map_fst (c : Cache) (k : CacheKey) :
    (cacheRemove c k).map Prod.fst =
      (c.map Prod.fst).filter (fun x => x ≠ k) := by
  unfold cacheRemove
  induction c with
  | nil => rfl
  | cons p c ih =>
    simp only [ne_eq, decide_not] at ih ⊢
    by_cases h : p.1 = k
    · simp [List.filter_cons, h, ih]
    · simp [List.filter_cons, h, ih]

/-- Filtering the image of `mkKey` is the image of the filtered list. -/
theorem filter_map_mkKey (seen : List String) (a : String) :
    ((seen.map mkKey).filter (fun x => x ≠ mkKey a)) =
      (seen.filter (fun x => x ≠ a)).map mkKey := by
  induction seen with
  | nil => rfl
  | cons s rest ih =>
    simp only [ne_eq, decide_not] at ih ⊢
    by_cases h : s = a
    · subst h
      simp [List.filter_cons, ih]
    · have h2 : ¬ mkKey s = mkKey a := fun hc => h (mkKey_injective hc)
      simp [List.filter_cons, h, h2, ih]

/-- For a duplicate-free list containing `a`, filtering `a` out removes
exactly one element. -/
theorem length_filter_ne_of_nodup (a : String) :
    ∀ seen : List String, seen.Nodup → a ∈ seen →
      (seen.filter (fun x => x ≠ a)).length + 1 = seen.length := by
  intro seen
  induction seen with
  | nil => intro _ h; simp at h
  | cons s rest ih =>
    intro hnd hmem
    rcases List.nodup_cons.mp hnd with ⟨hs, hrest⟩
    simp only [ne_eq, decide_not] at ih ⊢
    by_cases h : s = a
    · subst h
      have hfil : rest.filter (fun x => !decide (x = s)) = rest :=
        List.filter_eq_self.mpr (fun x hx => by
          simp only [Bool.not_eq_true', decide_eq_false_iff_not]
          exact fun hc => hs (hc ▸ hx))
      simp [List.filter_cons, hfil]
    · have hmem' : a ∈ rest := by
        rcases List.mem_cons.mp hmem with h' | h'
        · exact absurd h'.symm h
        · exact h'
      have hih := ih hrest hmem'
      simp only [List.filter_cons, h, decide_eq_true_eq, ne_eq, not_false_iff,
        Bool.not_eq_true', decide_eq_false_iff_not, if_true, List.length_cons]
      omega

/-- A `Public` classification implies the parse succeeded, hence no
diagnostic output. -/
theorem ip_type_of_public_out (parse : String → Option IPInfo) (s : String)
    (h : (ip_type_of parse s).1 = "Public") : (ip_type_of parse s).2 = [] := by
  unfold ip_type_of at h ⊢
  cases hp : parse s
  · rw [hp] at h
    simp at h
  · simp

/-- Body behaviour of a plain positional call on a public-resolving address:
a normal return and exactly one network lookup. -/
theorem get_whois_info_public_ok (env : WhoisEnv) (hp : PublicEnv env)
    (s : String) (hs : s ≠ "") :
    ∃ v, get_whois_info env (some s) false none =
      { result := .ok v, net := [s], out := [] } := by
  obtain ⟨hpub, r, hl, hasn⟩ := hp s hs
  obtain ⟨asn, hr⟩ := Option.isSome_iff_exists.mp hasn
  have hout := ip_type_of_public_out env.parse s hpub
  have hps : pyStrArg (some s) none = some s := by simp [pyStrArg, pyOrStr, hs]
  exact ⟨(asn, r), by simp [get_whois_info, hps, hpub, hl, hr, hout]⟩

/-- Unfolding one call of a run. -/
theorem runCalls_cons (M : Nat) (env : WhoisEnv) (c : Cache) (a : String)
    (rest : List CacheKey) :
    runCalls M env c (mkKey a :: rest) =
      ((runCalls M env (lruStep M env c (some a) false none).cache rest).1,
       (lruStep M env c (some a) false none).net ++
         (runCalls M env (lruStep M env c (some a) false none).cache rest).2) :=
  rfl

/-- A run over the concatenation of two call lists. -/
theorem runCalls_append (M : Nat) (env : WhoisEnv) :
    ∀ (l₁ l₂ : List CacheKey) (c : Cache),
      runCalls M env c (l₁ ++ l₂) =
        ((runCalls M env (runCalls M env c l₁).1 l₂).1,
         (runCalls M env c l₁).2 ++ (runCalls M env (runCalls M env c l₁).1 l₂).2) := by
  intro l₁
  induction l₁ with
  | nil => intro l₂ c; simp [runCalls]
  | cons a rest ih =>
    intro l₂ c
    simp only [List.cons_append, runCalls, List.append_eq, ih, List.append_assoc]

/-- A cache hit serves the stored pair and refreshes its recency. -/
theorem lruStep_hit (M : Nat) (env : WhoisEnv) (c : Cache) (a : String)
    (v : CacheVal) (h : cacheFind c (mkKey a) = some v) :
    lruStep M env c (some a) false none =
      { result := .ok v, net := [], out := [],
        cache := cacheRefresh c (mkKey a) v } := by
  have h' : cacheFind c (some a, false, none) = some v := h
  simp only [lruStep]
  rw [h']
  rfl

/-- A cache miss with a normally returning body stores the new value. -/
theorem lruStep_miss_ok (M : Nat) (env : WhoisEnv) (c : Cache) (a : String)
    (v : CacheVal) (n o : List String)
    (h : cacheFind c (mkKey a) = none)
    (hb : get_whois_info env (some a) false none =
      { result := .ok v, net := n, out := o }) :
    lruStep M env c (some a) false none =
      { result := .ok v, net := n, out := o,
        cache := cacheInsert M c (mkKey a) v } := by
  have h' : cacheFind c (some a, false, none) = none := h
  simp only [lruStep]
  rw [h', hb]
  rfl

/-- Network trace of a run that stays within the cache capacity: exactly the
keys not seen before, each looked up once. -/
theorem runCalls_net_of_bounded (M : Nat) (env : WhoisEnv) (hp : PublicEnv env) :
    ∀ (addrs : List String) (c : Cache) (seen : List String),
      (∀ a ∈ addrs, a ≠ "") →
      c.map Prod.fst = seen.map mkKey →
      seen.Nodup →
      seen.length + (freshKeys seen addrs).length ≤ M →
      (runCalls M env c (addrs.map mkKey)).2 = freshKeys seen addrs := by
  intro addrs
  induction addrs with
  | nil =>
    intro c seen _ _ _ _
    simp [runCalls, freshKeys]
  | cons a rest ih =>
    intro c seen hne hkeys hnd hlen
    have hane : a ≠ "" := hne a (by simp)
    have hrestne : ∀ x ∈ rest, x ≠ "" := fun x hx => hne x (by simp [hx])
    by_cases hmem : a ∈ seen
    · -- cache hit: no network call, entry moved to the front
      obtain ⟨v, h1⟩ : ∃ v, cacheFind c (mkKey a) = some v := by
        cases h1 : cacheFind c (mkKey a) with
        | none =>
          exfalso
          have habs : mkKey a ∈ c.map Prod.fst := by
            rw [hkeys]
            exact List.mem_map_of_mem mkKey hmem
          exact (cacheFind_eq_none c (mkKey a)).mp h1 habs
        | some v => exact ⟨v, rfl⟩
      have hstep := lruStep_hit M env c a v h1
      have hkeys' : (cacheRefresh c (mkKey a) v).map Prod.fst =
          (a :: seen.filter (fun x => x ≠ a)).map mkKey := by
        unfold cacheRefresh
        rw [List.map_cons, cacheRemove_map_fst, hkeys, filter_map_mkKey]
        rfl
      have hmemiff : ∀ x, x ∈ a :: seen.filter (fun y => y ≠ a) ↔ x ∈ seen := by
        intro x
        simp only [List.mem_cons, List.mem_filter, decide_eq_true_eq, ne_eq,
          decide_not, Bool.not_eq_true', decide_eq_false_iff_not]
        constructor
        · rintro (rfl | ⟨hx, _⟩)
          · exact hmem
          · exact hx
        · intro hx
          by_cases hxa : x = a
          · exact Or.inl hxa
          · exact Or.inr ⟨hx, hxa⟩
      have hnd' : (a :: seen.filter (fun x => x ≠ a)).Nodup := by
        rw [List.nodup_cons]
        constructor
        · intro hcon
          have := (List.mem_filter.mp hcon).2
          simp at this
        · exact hnd.filter _
      have hlenf : (a :: seen.filter (fun x => x ≠ a)).length = seen.length := by
        have := length_filter_ne_of_nodup a seen hnd hmem
        simpa using this
      have hfk : freshKeys seen (a :: rest) = freshKeys seen rest := by
        simp [freshKeys, hmem]
      have hfk' : freshKeys (a :: seen.filter (fun x => x ≠ a)) rest =
          freshKeys seen rest :=
        freshKeys_congr rest _ seen hmemiff
      have ihres := ih (cacheRefresh c (mkKey a) v)
        (a :: seen.filter (fun x => x ≠ a)) hrestne hkeys' hnd'
        (by rw [hlenf, hfk']; rw [hfk] at hlen; exact hlen)
      rw [hfk'] at ihres
      rw [List.map_cons, runCalls_cons, hstep, hfk]
      simp [ihres]
    · -- cache miss: one network call, value inserted most-recently-used
      have h1 : cacheFind c (mkKey a) = none := by
        apply (cacheFind_eq_none c (mkKey a)).mpr
        rw [hkeys]
        intro hcon
        rcases List.mem_map.mp hcon with ⟨x, hx, hxe⟩
        exact hmem (mkKey_injective hxe ▸ hx)
      obtain ⟨v, hbody⟩ := get_whois_info_public_ok env hp a hane
      have hstep := lruStep_miss_ok M env c a v [a] [] h1 hbody
      have hclen : c.length = seen.length := by
        have := congrArg List.length hkeys
        simpa using this
      have hfk2 : freshKeys seen (a :: rest) = a :: freshKeys (a :: seen) rest := by
        simp [freshKeys, hmem]
      have hbound : c.length + 1 ≤ M := by
        rw [hfk2] at hlen
        simp only [List.length_cons] at hlen
        omega
      have hins : cacheInsert M c (mkKey a) v = (mkKey a, v) :: c := by
        unfold cacheInsert
        apply List.take_of_length_le
        simpa using hbound
      have hkeys' : (cacheInsert M c (mkKey a) v).map Prod.fst =
          (a :: seen).map mkKey := by
        rw [hins]
        simp only [List.map_cons, hkeys]
      have hnd' : (a :: seen).Nodup := List.nodup_cons.mpr ⟨hmem, hnd⟩
      have hlen' : (a :: seen).length + (freshKeys (a :: seen) rest).length ≤ M := by
        rw [hfk2] at hlen
        simp only [List.length_cons] at hlen ⊢
        omega
      have ihres := ih (cacheInsert M c (mkKey a) v) (a :: seen)
        hrestne hkeys' hnd' hlen'
      rw [List.map_cons, runCalls_cons, hstep, hfk2]
      simp [ihres]

/-- Truncating before an append is absorbed by the outer truncation. -/
theorem take_append_take {α : Type} (M : Nat) (l c : List α) :
    (l ++ c.take M).take M = (l ++ c).take M := by
  rw [List.take_append_eq_append_take, List.take_append_eq_append_take,
    List.take_take]
  have h2 : (M - l.length) ⊓ M = M - l.length := by omega
  rw [h2]

/-- Network trace and final cache shape of a run over pairwise-distinct keys
absent from the starting cache: every call misses (one network lookup each),
and the final cache retains only the `M` most recently used keys. -/
theorem runCalls_fresh (M : Nat) (env : WhoisEnv) (hp : PublicEnv env) :
    ∀ (addrs : List String) (c : Cache),
      addrs.Nodup →
      (∀ a ∈ addrs, a ≠ "") →
      (∀ a ∈ addrs, mkKey a ∉ c.map Prod.fst) →
      c.length ≤ M →
      (runCalls M env c (addrs.map mkKey)).2 = addrs ∧
      (runCalls M env c (addrs.map mkKey)).1.map Prod.fst =
        (addrs.reverse.map mkKey ++ c.map Prod.fst).take M := by
  intro addrs
  induction addrs with
  | nil =>
    intro c _ _ _ hc
    refine ⟨by simp [runCalls], ?_⟩
    simp only [List.map_nil, runCalls, List.reverse_nil, List.nil_append]
    exact (List.take_of_length_le (by simpa using hc)).symm
  | cons a rest ih =>
    intro c hnd hne hfresh hc
    rcases List.nodup_cons.mp hnd with ⟨hna, hndrest⟩
    have h1 : cacheFind c (mkKey a) = none :=
      (cacheFind_eq_none c (mkKey a)).mpr (hfresh a (by simp))
    obtain ⟨v, hbody⟩ := get_whois_info_public_ok env hp a (hne a (by simp))
    have hstep := lruStep_miss_ok M env c a v [a] [] h1 hbody
    have hkeys1 : (cacheInsert M c (mkKey a) v).map Prod.fst =
        (mkKey a :: c.map Prod.fst).take M := by
      unfold cacheInsert
      rw [List.map_take, List.map_cons]
    have hlen1 : (cacheInsert M c (mkKey a) v).length ≤ M := by
      unfold cacheInsert
      rw [List.length_take]
      omega
    have hfresh1 : ∀ x ∈ rest, mkKey x ∉ (cacheInsert M c (mkKey a) v).map Prod.fst := by
      intro x hx hcon
      rw [hkeys1] at hcon
      have hmem := (List.take_sublist M _).subset hcon
      rcases List.mem_cons.mp hmem with heq | hmem'
      · exact hna (mkKey_injective heq ▸ hx)
      · exact hfresh x (by simp [hx]) hmem'
    have hrestne : ∀ x ∈ rest, x ≠ "" := fun x hx => hne x (by simp [hx])
    obtain ⟨ihnet, ihkeys⟩ := ih (cacheInsert M c (mkKey a) v) hndrest hrestne hfresh1 hlen1
    constructor
    · rw [List.map_cons, runCalls_cons, hstep]
      simp [ihnet]
    · rw [List.map_cons, runCalls_cons]
      simp only [hstep]
      rw [ihkeys, hkeys1, take_append_take]
      simp [List.append_assoc]

/-- One step of a run is exactly one call to the source's cached function. -/
theorem runCalls_step_eq_cached (env : WhoisEnv) (c : Cache) (ip : Option String)
    (sp : Bool) (kw : Option String) :
    lruStep 1024 env c ip sp kw = get_whois_info_cached env c ip sp kw :=
  rfl

/-- Every string parses and resolves in `envAllPublic`. -/
theorem envAllPublic_public : PublicEnv envAllPublic := by
  intro s _
  refine ⟨?_, [("asn_description", s)], rfl, ?_⟩
  · simp [ip_type_of, envAllPublic, classifyInfo, publicInfo]
  · simp [recFind, List.find?]

theorem evictKeys_length : evictKeys.length = 1024 := by
  simp [evictKeys]

theorem evictKeys_nodup : evictKeys.Nodup := by
  have hinj : Function.Injective (fun i => String.mk (List.replicate (i + 1) 'k')) := by
    intro i j h
    have h2 : List.replicate (i + 1) 'k' = List.replicate (j + 1) 'k' :=
      congrArg String.data h
    have h3 := congrArg List.length h2
    simp only [List.length_replicate] at h3
    omega
  exact List.Nodup.map hinj (List.nodup_range 1024)

theorem evictKeys_ne_A : ∀ x ∈ evictKeys, x ≠ "A" := by
  intro x hx
  rcases List.mem_map.mp hx with ⟨i, _, rfl⟩
  intro hcon
  have h2 : List.replicate (i + 1) 'k' = "A".data := congrArg String.data hcon
  rw [List.replicate_succ] at h2
  have hA : "A".data = ['A'] := rfl
  rw [hA] at h2
  injection h2 with ha _
  exact absurd ha (by decide)

theorem evictKeys_ne_empty : ∀ x ∈ evictKeys, x ≠ "" := by
  intro x hx
  rcases List.mem_map.mp hx with ⟨i, _, rfl⟩
  intro hcon
  have h2 : List.replicate (i + 1) 'k' = "".data := congrArg String.data hcon
  have hE : "".data = [] := rfl
  rw [hE] at h2
  have h3 := congrArg List.length h2
  simp [List.length_replicate] at h3

/-- Counterexample to C5 as stated: the memoization cache is *not* unbounded.
Resolving `"A"`, then 1024 distinct other public addresses, then `"A"` again
performs **two** network lookups of `"A"`: the 1024-entry LRU cache evicts
`"A"` before the repeat call. -/
theorem claim_C5_counterexample :
    ((runCalls 1024 envAllPublic [] (evictSeq.map mkKey)).2.count "A") = 2 := by
  have hAe : "A" ∉ evictKeys := fun h => evictKeys_ne_A "A" h rfl
  have hnd1 : ("A" :: evictKeys).Nodup := List.nodup_cons.mpr ⟨hAe, evictKeys_nodup⟩
  have hne1 : ∀ x ∈ "A" :: evictKeys, x ≠ "" := by
    intro x hx
    rcases List.mem_cons.mp hx with rfl | hx'
    · decide
    · exact evictKeys_ne_empty x hx'
  have hfresh1 : ∀ x ∈ "A" :: evictKeys, mkKey x ∉ (([] : Cache)).map Prod.fst := by
    intro x _ h
    simp at h
  obtain ⟨hnet1, hkeys1⟩ := runCalls_fresh 1024 envAllPublic envAllPublic_public
    ("A" :: evictKeys) [] hnd1 hne1 hfresh1 (by simp)
  have hlenrev : (evictKeys.reverse.map mkKey).length = 1024 := by
    simp [evictKeys_length]
  have hkeys1' :
      (runCalls 1024 envAllPublic [] (("A" :: evictKeys).map mkKey)).1.map Prod.fst =
        evictKeys.reverse.map mkKey := by
    rw [hkeys1]
    simp only [List.reverse_cons, List.map_append, List.map_nil, List.append_nil]
    rw [← hlenrev, List.take_left]
  have hclen :
      (runCalls 1024 envAllPublic [] (("A" :: evictKeys).map mkKey)).1.length = 1024 := by
    have h := congrArg List.length hkeys1'
    rw [List.length_map, List.length_map, List.length_reverse] at h
    rw [h, evictKeys_length]
  have hfresh2 : ∀ x ∈ ["A"], mkKey x ∉
      ((runCalls 1024 envAllPublic [] (("A" :: evictKeys).map mkKey)).1.map Prod.fst) := by
    intro x hx
    have hx' := List.mem_singleton.mp hx
    subst hx'
    rw [hkeys1']
    intro hcon
    rcases List.mem_map.mp hcon with ⟨y, hy, hye⟩
    have hyA : y = "A" := mkKey_injective hye
    exact evictKeys_ne_A y (List.mem_reverse.mp hy) hyA
  have hne2 : ∀ x ∈ ["A"], x ≠ "" := by
    intro x hx
    have hx' := List.mem_singleton.mp hx
    subst hx'
    decide
  obtain ⟨hnet2, _⟩ := runCalls_fresh 1024 envAllPublic envAllPublic_public
    ["A"] (runCalls 1024 envAllPublic [] (("A" :: evictKeys).map mkKey)).1
    (by simp) hne2 hfresh2 (le_of_eq hclen)
  unfold evictSeq
  rw [List.map_append, runCalls_append]
  simp only [List.count_append]
  rw [hnet1, hnet2, List.count_cons]
  have hc0 : evictKeys.count "A" = 0 := List.count_eq_zero.mpr hAe
  have hc1 : List.count "A" ["A"] = 1 := by decide
  simp [hc0, hc1]

/-- C5 (amended): the memoization cache of `get_whois_info` is a bounded LRU
cache of capacity 1024, not an unbounded table.  Within the bound the claim's
content holds: for any sequence of public-resolving addresses touching at
most 1024 distinct keys, the network trace consists of the distinct keys in
first-occurrence order, each looked up exactly once (no previously resolved
key ever incurs a second network call).  Past 1024 distinct keys,
least-recently-used entries are evicted and re-incur lookups (see the
counterexample). -/
theorem claim_C5_amended_bounded_lru (env : WhoisEnv) (hp : PublicEnv env)
    (addrs : List String) (hne : ∀ a ∈ addrs, a ≠ "")
    (hlen : (freshKeys [] addrs).length ≤ 1024) :
    (runCalls 1024 env [] (addrs.map mkKey)).2 = freshKeys [] addrs ∧
    (freshKeys [] addrs).Nodup := by
  refine ⟨?_, freshKeys_nodup addrs []⟩
  exact runCalls_net_of_bounded 1024 env hp addrs [] [] hne rfl List.nodup_nil
    (by simpa using hlen)

/-! ## Claim C10: the progress marker -/

/-- The parse diagnostic is never the progress marker. -/
theorem parseDiag_ne_dot (s : String) : parseDiag s ≠ "." := by
  intro h
  have h2 := congrArg String.length h
  rw [parseDiag, String.length_append] at h2
  have hsuf : 2 ≤ (" does not appear to be an IPv4 or IPv6 address" : String).length := by
    decide
  have hdot : ("." : String).length = 1 := by decide
  rw [hdot] at h2
  omega

/-- Marker characterisation for the undecorated body: `"."` is printed iff
progress display is on, the address is present, it classifies `Public`, and
the client lookup succeeds. -/
theorem get_whois_info_out_marker (env : WhoisEnv) (ip : Option String)
    (sp : Bool) (kw : Option String) :
    "." ∈ (get_whois_info env ip sp kw).out ↔
      (sp = true ∧ ∃ s, pyStrArg ip kw = some s ∧
        (ip_type_of env.parse s).1 = "Public" ∧
        ∃ r, env.lookup_whois s = .ok r) := by
  unfold get_whois_info
  cases hps : pyStrArg ip kw
  · simp
  · rename_i s
    by_cases ht : (ip_type_of env.parse s).1 = "Public"
    · cases hl : env.lookup_whois s
      · rename_i e
        simp [ht, hl, ip_type_of_public_out env.parse s ht]
      · rename_i r
        cases hr : recFind r "asn_description" <;>
          simp [ht, hl, hr, ip_type_of_public_out env.parse s ht]
    · rcases hparse : env.parse s with _ | info
      · have htp : ip_type_of env.parse s = ("Unspecified", [parseDiag s]) := by
          simp [ip_type_of, hparse]
        simp [ht, htp, List.mem_singleton]
        exact fun h => parseDiag_ne_dot s h.symm
      · have htp : ip_type_of env.parse s = (classifyInfo info, []) := by
          simp [ip_type_of, hparse]
        rw [htp] at ht
        simp at ht
        simp [htp, ht]

/-- C10: with `show_progress=True`, the cached resolver prints the progress
marker `"."` exactly when the call misses the cache, the address is present
and classifies `Public`, and the external WHOIS lookup completes
successfully; no marker is printed on cache hits, on non-public addresses, or
when the lookup raises a caught client error. -/
theorem claim_C10_progress_marker (env : WhoisEnv) (c : Cache)
    (ip : Option String) (sp : Bool) (kw : Option String) :
    "." ∈ (get_whois_info_cached env c ip sp kw).out ↔
      (sp = true ∧ cacheFind c (ip, sp, kw) = none ∧
        ∃ s, pyStrArg ip kw = some s ∧
          (ip_type_of env.parse s).1 = "Public" ∧
          ∃ r, env.lookup_whois s = .ok r) := by
  unfold get_whois_info_cached lruStep
  cases h1 : cacheFind c (ip, sp, kw)
  · have hbody := get_whois_info_out_marker env ip sp kw
    cases hor : (get_whois_info env ip sp kw).result <;>
      simp [h1, hor] <;> rw [← hbody]
  · simp [h1]

/-- Witness for the amended C5 at a concrete call sequence with a repeat:
`["a", "b", "a"]` incurs exactly the network trace `["a", "b"]`. -/
theorem claim_C5_amended_bounded_lru_witness :
    PublicEnv envAllPublic ∧ (∀ a ∈ ["a", "b", "a"], a ≠ "") ∧
    (freshKeys [] ["a", "b", "a"]).length ≤ 1024 ∧
    ((runCalls 1024 envAllPublic [] ((["a", "b", "a"]).map mkKey)).2 =
        freshKeys [] ["a", "b", "a"] ∧
      (freshKeys [] ["a", "b", "a"]).Nodup) :=
  ⟨envAllPublic_public, by decide, by decide,
    claim_C5_amended_bounded_lru envAllPublic envAllPublic_public ["a", "b", "a"]
      (by decide) (by decide)⟩

/-! ## Claims C6 and C7 -/

/-- `freshKeys` only yields elements of the scanned list. -/
theorem freshKeys_subset (l : List String) :
    ∀ (seen : List String) (x : String), x ∈ freshKeys seen l → x ∈ l := by
  induction l with
  | nil =>
    intro seen x h
    simp [freshKeys] at h
  | cons a rest ih =>
    intro seen x h
    by_cases ha : a ∈ seen
    · simp only [freshKeys, ha, if_true] at h
      exact List.mem_cons_of_mem a (ih seen x h)
    · simp only [freshKeys, ha, if_false] at h
      rcases List.mem_cons.mp h with rfl | h'
      · simp
      · exact List.mem_cons_of_mem a (ih (a :: seen) x h')

/-- Every unseen element of the scanned list is yielded. -/
theorem freshKeys_mem_of (l : List String) :
    ∀ (seen : List String) (x : String), x ∈ l → x ∉ seen →
      x ∈ freshKeys seen l := by
  induction l with
  | nil =>
    intro seen x h _
    simp at h
  | cons a rest ih =>
    intro seen x hx hns
    by_cases ha : a ∈ seen
    · rcases List.mem_cons.mp hx with rfl | hx'
      · exact absurd ha hns
      · simp only [freshKeys, ha, if_true]
        exact ih seen x hx' hns
    · simp only [freshKeys, ha, if_false]
      rcases List.mem_cons.mp hx with rfl | hx'
      · simp
      · by_cases hxa : x = a
        · subst hxa
          simp
        · apply List.mem_cons_of_mem
          exact ih (a :: seen) x hx' (by simp [hns, hxa])

/-- The expanded column set is exactly the union of the record fields. -/
theorem mem_unionFields (recs : List Record) (c : String) :
    c ∈ unionFields recs ↔ ∃ r ∈ recs, c ∈ r.map Prod.fst := by
  unfold unionFields
  constructor
  · intro h
    have hmem := freshKeys_subset _ [] c h
    rcases List.mem_flatten.mp hmem with ⟨l, hl, hcl⟩
    rcases List.mem_map.mp hl with ⟨r, hr, rfl⟩
    exact ⟨r, hr, hcl⟩
  · rintro ⟨r, hr, hcr⟩
    apply freshKeys_mem_of _ [] c _ (by simp)
    exact List.mem_flatten.mpr ⟨r.map Prod.fst, List.mem_map_of_mem _ hr, hcr⟩

/-- The `apply` produces one result per input row. -/
theorem rowsWhois_length (env : WhoisEnv) (df : DataFrame) (ipc : String) (sp : Bool) :
    ∀ (rows : List (List PyVal)) (vals : List (String × Record)) (n o : List String),
      rowsWhois env df ipc sp rows = .ok (vals, n, o) → vals.length = rows.length := by
  intro rows
  induction rows with
  | nil =>
    intro vals n o h
    simp [rowsWhois] at h
    simp [← h.1]
  | cons row rest ih =>
    intro vals n o h
    simp only [rowsWhois] at h
    cases hr : rowWhois env df ipc sp row with
    | error e =>
      rw [hr] at h
      simp at h
    | ok v =>
      obtain ⟨v1, n1, o1⟩ := v
      rw [hr] at h
      cases hrest : rowsWhois env df ipc sp rest with
      | error e =>
        rw [hrest] at h
        simp at h
      | ok w =>
        obtain ⟨vs, ns, os⟩ := w
        rw [hrest] at h
        simp only [Except.ok.injEq, Prod.mk.injEq] at h
        obtain ⟨h1, _, _⟩ := h
        rw [← h1]
        simp [ih vs ns os hrest]

/-- Counterexample to C6 as stated: in expand mode the returned frame does
*not* retain the input's original columns.  On a one-row frame with columns
`["ip", "other"]` the result holds only the record column
`"asn_description"`; the column `"other"` is gone. -/
theorem claim_C6_counterexample :
    (get_whois_df envDemo dfPub2 "ip" true "AsnDescription" none false).result =
      .ok dfPub2Expanded ∧
    "other" ∈ dfPub2.cols ∧
    "other" ∉ dfPub2Expanded.cols := by
  refine ⟨by decide, by decide, by decide⟩

/-- C6 (amended): in expand mode (`all_columns=True`) `get_whois_df` returns
a **new frame consisting solely of the expanded record columns** — one column
per distinct field name appearing across all rows' records, in
first-appearance order, one output row per input row, with `NaN` for a row
whose record lacks a field.  The input's original columns are not retained
(so no column-name conflict can arise). -/
theorem claim_C6_amended_expand_replaces (env : WhoisEnv) (data : DataFrame)
    (ip_column asn_col : String) (whois_col : Option String) (sp : Bool)
    (vals : List (String × Record)) (n o : List String)
    (h : rowsWhois env data ip_column sp data.rows = .ok (vals, n, o)) :
    (get_whois_df env data ip_column true asn_col whois_col sp).result =
      .ok (applyExpandRecords (vals.map Prod.snd)) ∧
    (applyExpandRecords (vals.map Prod.snd)).cols = unionFields (vals.map Prod.snd) ∧
    (applyExpandRecords (vals.map Prod.snd)).rows =
      (vals.map Prod.snd).map (fun r =>
        (unionFields (vals.map Prod.snd)).map fun c =>
          match recFind r c with
          | some v => PyVal.vstr v
          | none => PyVal.vnan) ∧
    (applyExpandRecords (vals.map Prod.snd)).rows.length = data.rows.length ∧
    (∀ c, c ∈ unionFields (vals.map Prod.snd) ↔
      ∃ r ∈ vals.map Prod.snd, c ∈ r.map Prod.fst) := by
  refine ⟨?_, rfl, rfl, ?_, fun c => mem_unionFields _ c⟩
  · unfold get_whois_df
    rw [h]
    rfl
  · have hlen := rowsWhois_length env data ip_column sp data.rows vals n o h
    simp [applyExpandRecords, hlen]

/-- Witness for the amended C6 on the concrete two-column frame. -/
theorem claim_C6_amended_expand_replaces_witness :
    rowsWhois envDemo dfPub2 "ip" false dfPub2.rows =
      .ok ([("ASN EXAMPLE 8.8.8.8", [("asn_description", "ASN EXAMPLE 8.8.8.8")])],
        ["8.8.8.8"], []) ∧
    ((get_whois_df envDemo dfPub2 "ip" true "AsnDescription" none false).result =
      .ok (applyExpandRecords
        (([("ASN EXAMPLE 8.8.8.8",
            [("asn_description", "ASN EXAMPLE 8.8.8.8")])]).map Prod.snd)) ∧
    (applyExpandRecords
        (([("ASN EXAMPLE 8.8.8.8",
            [("asn_description", "ASN EXAMPLE 8.8.8.8")])]).map Prod.snd)).cols =
      unionFields (([("ASN EXAMPLE 8.8.8.8",
            [("asn_description", "ASN EXAMPLE 8.8.8.8")])]).map Prod.snd) ∧
    (applyExpandRecords
        (([("ASN EXAMPLE 8.8.8.8",
            [("asn_description", "ASN EXAMPLE 8.8.8.8")])]).map Prod.snd)).rows =
      (([("ASN EXAMPLE 8.8.8.8",
            [("asn_description", "ASN EXAMPLE 8.8.8.8")])]).map Prod.snd).map (fun r =>
        (unionFields (([("ASN EXAMPLE 8.8.8.8",
            [("asn_description", "ASN EXAMPLE 8.8.8.8")])]).map Prod.snd)).map fun c =>
          match recFind r c with
          | some v => PyVal.vstr v
          | none => PyVal.vnan) ∧
    (applyExpandRecords
        (([("ASN EXAMPLE 8.8.8.8",
            [("asn_description", "ASN EXAMPLE 8.8.8.8")])]).map Prod.snd)).rows.length =
      dfPub2.rows.length ∧
    (∀ c, c ∈ unionFields (([("ASN EXAMPLE 8.8.8.8",
            [("asn_description", "ASN EXAMPLE 8.8.8.8")])]).map Prod.snd) ↔
      ∃ r ∈ ([("ASN EXAMPLE 8.8.8.8",
            [("asn_description", "ASN EXAMPLE 8.8.8.8")])]).map Prod.snd,
        c ∈ r.map Prod.fst)) :=
  ⟨by decide,
    claim_C6_amended_expand_replaces envDemo dfPub2 "ip" "AsnDescription" none false
      [("ASN EXAMPLE 8.8.8.8", [("asn_description", "ASN EXAMPLE 8.8.8.8")])]
      ["8.8.8.8"] [] (by decide)⟩

/-- Counterexample to C7's exception clause: in summary-only mode
(`all_columns=False`, no `whois_col`) the caller's frame is *not* mutated in
place — the function copies first; the enriched frame it returns differs from
the caller's frame, which is unchanged. -/
theorem claim_C7_counterexample :
    (get_whois_df envDemo dfPriv "ip" false "AsnDescription" none false).caller =
      dfPriv ∧
    (get_whois_df envDemo dfPriv "ip" false "AsnDescription" none false).result ≠
      .ok dfPriv := by
  refine ⟨by decide, by decide⟩

/-- C7 (amended): `get_whois_df` returns a new/copied frame and never mutates
the caller's frame, in every mode — expand, summary+record, and summary-only
alike (the source executes `data = data.copy()` before both non-expand
branches, and the expand branch only reads `data`). -/
theorem claim_C7_amended_no_mutation (env : WhoisEnv) (data : DataFrame)
    (ip_column asn_col : String) (all_columns : Bool) (whois_col : Option String)
    (show_progress : Bool) :
    (get_whois_df env data ip_column all_columns asn_col whois_col
      show_progress).caller = data := by
  unfold get_whois_df
  cases h : rowsWhois env data ip_column show_progress data.rows with
  | error e => rfl
  | ok v =>
    obtain ⟨vals, n, o⟩ := v
    cases all_columns with
    | false => cases whois_col <;> rfl
    | true => rfl

/-! ## Claims C8 and C9 -/

/-- Counterexample to C8's exactly-one clause: providing *both* the delimited
string and the table + column does not raise — the string input takes
precedence and the call succeeds. -/
theorem claim_C8_counterexample :
    convert_to_ip_entities (some "10.0.0.1") (some dfTwo) (some "ip") false =
      .ok (["10.0.0.1"], []) := by
  decide

/-- C8 (amended): missing required input raises `ValueError` synchronously
and is never swallowed: `get_ip_type` and the `get_whois_info` body raise
when the effective address is absent or empty, and `convert_to_ip_entities`
raises when the address string is falsy and no usable table + column pair is
given.  When the address string is truthy the call succeeds even if a table
is also supplied — the string takes precedence, so providing both is *not*
an error. -/
theorem claim_C8_invalid_argument (parse : String → Option IPInfo)
    (env : WhoisEnv) (ip ip_str : Option String) (sp : Bool)
    (data : Option DataFrame) (ip_col : Option String) (geo : Bool) (s : String) :
    (pyStrArg ip ip_str = none → get_ip_type parse ip ip_str = .error .valueError) ∧
    (pyStrArg ip ip_str = none →
      (get_whois_info env ip sp ip_str).result = .error .valueError ∧
      (get_whois_info env ip sp ip_str).net = []) ∧
    (pyTruthyStr ip_str = false → (data = none ∨ pyTruthyStr ip_col = false) →
      convert_to_ip_entities ip_str data ip_col geo = .error .valueError) ∧
    (s ≠ "" →
      convert_to_ip_entities (some s) data ip_col geo =
        .ok (convLoop geo (arg_to_list s) [] [] [])) := by
  have hcfd : ∀ (d : Option DataFrame) (c : Option String),
      (d = none ∨ pyTruthyStr c = false) →
      convertFromData d c geo = .error .valueError := by
    intro d c hd
    match d, c with
    | none, c => cases c <;> rfl
    | some df, none => rfl
    | some df, some cs =>
      rcases hd with h | h
      · exact absurd h (by simp)
      · have hcs : cs = "" := by
          simpa [pyTruthyStr] using h
        subst hcs
        simp [convertFromData]
  refine ⟨?_, ?_, ?_, ?_⟩
  · intro hnone
    unfold get_ip_type
    rw [hnone]
  · intro hnone
    unfold get_whois_info
    rw [hnone]
    exact ⟨rfl, rfl⟩
  · intro hfalsy hdisj
    cases ip_str with
    | none => exact hcfd data ip_col hdisj
    | some s' =>
      have hs' : s' = "" := by
        simpa [pyTruthyStr] using hfalsy
      subst hs'
      have hred : convert_to_ip_entities (some "") data ip_col geo =
          convertFromData data ip_col geo := by
        simp [convert_to_ip_entities]
      rw [hred]
      exact hcfd data ip_col hdisj
  · intro hs
    simp [convert_to_ip_entities, hs]

/-- Witness for the amended C8 at concrete inputs: absent address raises in
classify and resolve; neither input raises in the builder; both inputs do not
raise in the builder. -/
theorem claim_C8_invalid_argument_witness :
    (pyStrArg none none = none ∧
      get_ip_type parseDemo none none = .error .valueError) ∧
    ((get_whois_info envDemo none false none).result = .error .valueError ∧
      (get_whois_info envDemo none false none).net = []) ∧
    (pyTruthyStr none = false ∧
      convert_to_ip_entities none none none false = .error .valueError) ∧
    ("10.0.0.1" ≠ "" ∧
      convert_to_ip_entities (some "10.0.0.1") (some dfTwo) (some "ip") false =
        .ok (convLoop false (arg_to_list "10.0.0.1") [] [] [])) :=
  ⟨⟨rfl, (claim_C8_invalid_argument parseDemo envDemo none none false none none
      false "x").1 rfl⟩,
   (claim_C8_invalid_argument parseDemo envDemo none none false none none
      false "x").2.1 rfl,
   ⟨rfl, (claim_C8_invalid_argument parseDemo envDemo none none false none none
      false "x").2.2.1 rfl (Or.inl rfl)⟩,
   ⟨by decide, (claim_C8_invalid_argument parseDemo envDemo none none false
      (some dfTwo) (some "ip") false "10.0.0.1").2.2.2 (by decide)⟩⟩

/-- C9 as stated fails on the code: the geolocation loop
`for ip_ent in ip_entities:` sits *inside* the per-batch loop, so every
entity constructed in an earlier batch is looked up again after each later
batch.  On a two-row table the entities are `["1.2.3.4", "5.6.7.8"]` but the
lookup trace is `["1.2.3.4", "1.2.3.4", "5.6.7.8"]` — the first entity is
looked up twice, not once. -/
theorem claim_C9_geo_lookup_repeated :
    convert_to_ip_entities none (some dfTwo) (some "ip") true =
      .ok (["1.2.3.4", "5.6.7.8"], ["1.2.3.4", "1.2.3.4", "5.6.7.8"]) ∧
    ["1.2.3.4", "1.2.3.4", "5.6.7.8"] ≠ ["1.2.3.4", "5.6.7.8"] := by
  refine ⟨by decide, by decide⟩

end IpUtils
